import Mathlib

set_option maxRecDepth 10000

/-!
Verification of the instance lifecycle and access-arbitration layer of
pglite-embedded-server, shallowly embedded from the JavaScript source.

Embedded components:
* `ManagedInstance` lock / wait-queue arbitration (src/src/pool.js, lines 81-138)
  as a small-step transition system over an explicit state, with the Node.js
  event-loop discipline (microtasks drain before the next macrotask) modelled
  as a scheduling predicate on action traces.
* `ManagedInstance.initialize` (src/src/pool.js, lines 45-76) split at its one
  suspension point (`await this.db.waitReady`) into two phases, so that
  concurrent interleavings can be expressed.
* the port allocator `allocatePort` (src/port-manager, unnamed part_000),
  with the TCP probe `isPortFree` and OS process liveness as boolean oracles.
* the registry sweep `cleanupStaleInstances` (src/registry, unnamed part_001).
* the `InstancePool` supervisor: `getOrCreate` / `closeInstance` capacity logic
  and the constructor's falsy-default handling (src/src/pool.js, lines 176-231).
-/

namespace PGliteServer

/-! ## Managed-instance lock and wait-queue model (src/src/pool.js) -/

/-- One entry of the ghost event log: a successful `lock(socket)` call
(recording the holder id) or an `unlock()` call. -/
inductive LEntry where
  | grant : Nat → LEntry
  | unlock : LEntry
deriving DecidableEq

/-- State of one `ManagedInstance` together with the surrounding event-loop
bookkeeping.  Holder/waiter identities are naturals handed out in the order
the `acquire` calls reach the instance, so the id order is the issue order.

* `locked`, `activeSocket`, `queue` are the instance fields of the source.
* `pending` holds a waiter that `unlock()` has popped and resolved but whose
  continuation (which calls `instance.lock(socket)`) has not run yet: it is
  the microtask queue of the event loop.
* `log`, `busied`, `promoted` are ghost observation logs (`busied` records
  the waiters whose wait timer fired and rejected their promise with the
  Busy error; `promoted` records the queued waiters actually granted the
  lock, in order); `err` records an "already locked" throw inside a promoted
  waiter's continuation. -/
structure St where
  locked : Bool
  activeSocket : Option Nat
  queue : List Nat
  pending : List Nat
  nextId : Nat
  log : List LEntry
  busied : List Nat
  promoted : List Nat
  err : Bool
deriving DecidableEq

/-- `ManagedInstance.lock(socket)` (pool.js lines 81-96): throws when already
locked (modelled by the `err` flag; no state is replaced), otherwise takes the
lock for `sid`. -/
def lock (s : St) (sid : Nat) : St :=
  if s.locked then { s with err := true }
  else { s with locked := true, activeSocket := some sid,
                log := s.log ++ [LEntry.grant sid] }

/-- `ManagedInstance.unlock()` (pool.js lines 101-113): clears the lock, then
`queue.shift()`s the head entry and calls its stored `resolve`.  For a live
waiter the stored wrapper runs `clearTimeout` (so a popped waiter can no
longer time out) and resolves the promise, placing the waiter's continuation
on the microtask queue (`pending`).  But a timed-out entry is still in the
queue (its splice never ran, see `waitTimeout`): its promise is already
rejected, so resolving it is a no-op — the shift consumes the release
without promoting anybody. -/
def unlock (s : St) : St :=
  match s.queue with
  | [] => { s with locked := false, activeSocket := none,
                   log := s.log ++ [LEntry.unlock] }
  | h :: t =>
      if h ∈ s.busied then
        { s with locked := false, activeSocket := none,
                 log := s.log ++ [LEntry.unlock], queue := t }
      else
        { s with locked := false, activeSocket := none,
                 log := s.log ++ [LEntry.unlock],
                 queue := t, pending := s.pending ++ [h] }

/-- The continuation of `InstancePool.acquire` (pool.js lines 237-249) once
`getOrCreate` has resolved: if the instance is locked the request is enqueued
at the tail (the promise `waitForFree` pushes, lines 118-138), otherwise
`instance.lock(socket)` runs at once.  A fresh id is drawn either way. -/
def acquireStep (s : St) : St :=
  if s.locked then
    { s with queue := s.queue ++ [s.nextId], nextId := s.nextId + 1 }
  else
    lock { s with nextId := s.nextId + 1 } s.nextId

/-- The `setTimeout` callback of `waitForFree` (pool.js lines 123-127): it
rejects the promise with the Busy error, but its
`findIndex((item) => item.resolve === resolve)` compares each entry's stored
`resolve` — the wrapper closure `(instance) => { clearTimeout(timer);
resolve(instance); }` pushed on line 130 — against the raw promise resolver,
which is never identical to the wrapper.  The lookup therefore always yields
-1 and the splice never runs: the timed-out entry stays in the queue.  A
waiter already popped by `unlock()` had its timer cleared (and each timer
fires at most once), hence the no-op branch. -/
def waitTimeout (s : St) (w : Nat) : St :=
  if w ∈ s.queue ∧ w ∉ s.busied then
    { s with busied := s.busied ++ [w] }
  else s

/-- The promoted waiter's continuation: `waitForFree` resolved, control
returns into `acquire`, which calls `instance.lock(socket)` (pool.js line
247).  Runs as a microtask, i.e. pops `pending`.  The body inlines `lock`
(throw when locked, else take the lock) so the ghost `promoted` log can
record the queued waiters actually granted the lock, in order. -/
def resumeLock (s : St) : St :=
  match s.pending with
  | [] => s
  | h :: t =>
      if s.locked then { s with pending := t, err := true }
      else
        { s with pending := t, locked := true, activeSocket := some h,
                 log := s.log ++ [LEntry.grant h],
                 promoted := s.promoted ++ [h] }

/-- Actions of the transition system.  `acq`, `unl` and `timeout` are
macrotask (external) events: a connection request reaching the instance, a
socket-close handler invoking `unlock()`, a wait timer firing.  `resume` is
the microtask continuation of a promoted waiter. -/
inductive Act where
  | acq : Act
  | unl : Act
  | timeout : Nat → Act
  | resume : Act
deriving DecidableEq

/-- Macrotask events, as opposed to microtask continuations. -/
def Act.isExternal : Act → Bool
  | Act.resume => false
  | _ => true

def applyAct (s : St) : Act → St
  | Act.acq => acquireStep s
  | Act.unl => unlock s
  | Act.timeout w => waitTimeout s w
  | Act.resume => resumeLock s

/-- The freshly constructed `ManagedInstance` (pool.js lines 26-40):
unlocked, no active socket, empty queue. -/
def st0 : St :=
  { locked := false, activeSocket := none, queue := [], pending := [],
    nextId := 0, log := [], busied := [], promoted := [], err := false }

def execFrom (s : St) : List Act → St
  | [] => s
  | a :: rest => execFrom (applyAct s a) rest

/-- Run a trace of actions from the initial instance state. -/
def exec (acts : List Act) : St := execFrom st0 acts

/-- Node.js event-loop discipline: the microtask queue is drained before the
next macrotask starts, so an external event only ever fires with `pending`
empty.  `resume` actions may occur anywhere (they are no-ops when nothing is
pending). -/
def schedFrom : St → List Act → Bool
  | _, [] => true
  | s, a :: rest =>
      (if a.isExternal then s.pending.isEmpty else true)
        && schedFrom (applyAct s a) rest

/-- A trace respecting the event-loop discipline, from the initial state. -/
def scheduled (acts : List Act) : Bool := schedFrom st0 acts

def Act.isTimeout : Act → Bool
  | Act.timeout _ => true
  | _ => false

/-- A trace on which no wait timer ever fires. -/
def timeoutFree (acts : List Act) : Bool := acts.all (fun a => !a.isTimeout)

/-- No timed-out entry lingers and a free instance has an empty queue: the
part of the spec's free-window property that survives only on timeout-free
runs. -/
def NWindow (s : St) : Prop :=
  s.busied = [] ∧ (s.pending = [] → s.locked = false → s.queue = [])

/-- Holder ids granted the lock, in order, as recorded in the ghost log. -/
def grantsOf : List LEntry → List Nat
  | [] => []
  | LEntry.grant i :: rest => i :: grantsOf rest
  | LEntry.unlock :: rest => grantsOf rest

/-- A log is well separated for a given lock flag when every grant happens
with the flag down and raises it, and every unlock lowers it. -/
def okLog : List LEntry → Bool → Bool
  | [], _ => true
  | LEntry.grant _ :: rest, flag => !flag && okLog rest true
  | LEntry.unlock :: rest, _ => okLog rest false

/-- The lock flag after replaying a log. -/
def flagAfter : List LEntry → Bool → Bool
  | [], flag => flag
  | LEntry.grant _ :: rest, _ => flagAfter rest true
  | LEntry.unlock :: rest, _ => flagAfter rest false

/-- All ids currently waiting: popped-but-not-resumed first, then the queue. -/
def waiting (s : St) : List Nat := s.pending ++ s.queue

/-! ## Socket terminal notifications (src/src/pool.js lines 88-92)

`lock` registers `socket.once('close', unlock)` and
`socket.once('error', unlock)`.  `once` deregisters a handler after its first
invocation, but the two registrations are independent: each terminal event
kind that fires invokes `unlock` once. -/

inductive SockEv where
  | close : SockEv
  | error : SockEv
deriving DecidableEq

/-- Number of `unlock()` invocations triggered by the terminal notifications
a holder's socket emits, under the source's two independent `once`
registrations. -/
def onceUnlockCalls (evs : List SockEv) : Nat :=
  (if SockEv.close ∈ evs then 1 else 0) + (if SockEv.error ∈ evs then 1 else 0)

/-! ## `ManagedInstance.initialize` (src/src/pool.js lines 45-76)

The method has exactly one suspension point, `await this.db.waitReady`.
Everything before it is synchronous: the `this.db` check, the `new PGlite`
construction and the assignment `this.db = ...`.  The model splits the method
there.  Handles are identified by the value of a boot counter (ghost); the
outcome of the engine's ready signal is the `bootOk` oracle.  `ready` records
whether `waitReady` has resolved for the current handle. -/

structure MInst where
  db : Option Nat
  ready : Bool
  bootCount : Nat
deriving DecidableEq

/-- A freshly constructed `ManagedInstance`: `this.db = null`. -/
def mInst0 : MInst := { db := none, ready := false, bootCount := 0 }

/-- Result of the synchronous part of `initialize()`: either the early return
`if (this.db) return this.db`, or a boot was started and the call is now
suspended on `waitReady`. -/
inductive InitPhase where
  | done : Nat → MInst → InitPhase
  | inflight : Nat → MInst → InitPhase
deriving DecidableEq

/-- Synchronous part of `initialize()`: the `this.db` check; on the boot path
`this.db` is assigned before the suspension on `waitReady` (pool.js lines
52-62), so the in-flight state already carries the handle, unready. -/
def initStep1 (s : MInst) : InitPhase :=
  match s.db with
  | some h => InitPhase.done h s
  | none =>
      InitPhase.inflight s.bootCount
        { db := some s.bootCount, ready := false, bootCount := s.bootCount + 1 }

/-- Continuation after `await this.db.waitReady`: on resolution the handle is
returned (pool.js line 75); on rejection the error propagates — nothing
resets `this.db`. -/
def initStep2 (bootOk : Bool) (h : Nat) (s : MInst) : Except Unit Nat × MInst :=
  if bootOk then (Except.ok h, { s with ready := true })
  else (Except.error (), s)

/-- A full, uninterleaved `initialize()` call: the two phases composed. -/
def initInst (bootOk : Bool) (s : MInst) : Except Unit Nat × MInst :=
  match initStep1 s with
  | InitPhase.done h s' => (Except.ok h, s')
  | InitPhase.inflight h s' => initStep2 bootOk h s'

/-- The state observed while a boot started from `s` is still in flight. -/
def bootStarted (s : MInst) : MInst :=
  match initStep1 s with
  | InitPhase.done _ s' => s'
  | InitPhase.inflight _ s' => s'

/-! ## Registry and port allocator (unnamed parts 000 and 001) -/

/-- One registry record: `{port, pid, ...}`; `started` and `version` carry no
logic and are omitted. -/
structure RegEntry where
  port : Nat
  pid : Nat
deriving DecidableEq

/-- The registry's `instances` object: an association from data directory to
entry (JavaScript object keys are unique). -/
abbrev Registry := List (String × RegEntry)

/-- `registry.instances[dataDir]` point lookup. -/
def lookupReg (reg : Registry) (dataDir : String) : Option RegEntry :=
  (reg.find? (fun e => e.1 = dataDir)).map (fun e => e.2)

/-- `isPortInRegistry` (part_000 lines 33-43): true when any entry — live or
stale — claims the port. -/
def isPortInRegistry (reg : Registry) (p : Nat) : Bool :=
  reg.any (fun e => e.2.port = p)

def PORT_RANGE_START : Nat := 12000
def PORT_RANGE_END : Nat := 12999

inductive AllocErr where
  | outOfRange : AllocErr
  | rangeExhausted : AllocErr
deriving DecidableEq

/-- The ascending scan of part_000 lines 87-91: the first port in
`[12000, 12999]` that passes the TCP probe and is unclaimed in the registry.
The probe `isPortFree` is the boolean oracle `free`. -/
def scanPorts (reg : Registry) (free : Nat → Bool) : Option Nat :=
  ((List.range (PORT_RANGE_END + 1 - PORT_RANGE_START)).map
      (fun i => PORT_RANGE_START + i)).find?
    (fun p => free p && !isPortInRegistry reg p)

/-- `allocatePort` after the existing-instance short-circuit: preferred-port
validation and check (part_000 lines 70-85), then the ascending scan. -/
def allocateFresh (reg : Registry) (free : Nat → Bool)
    (preferredPort : Option Nat) : Except AllocErr Nat :=
  match preferredPort with
  | some p =>
      if p < PORT_RANGE_START ∨ PORT_RANGE_END < p then
        Except.error AllocErr.outOfRange
      else if free p && !isPortInRegistry reg p then Except.ok p
      else
        match scanPorts reg free with
        | some q => Except.ok q
        | none => Except.error AllocErr.rangeExhausted
  | none =>
      match scanPorts reg free with
      | some q => Except.ok q
      | none => Except.error AllocErr.rangeExhausted

/-- `allocatePort(dataDir, preferredPort)` (part_000 lines 54-97).  `alive`
is the `process.kill(pid, 0)` liveness oracle.  A live entry for the same
data directory short-circuits to its port; a stale one falls through to fresh
allocation. -/
def allocatePort (reg : Registry) (alive free : Nat → Bool) (dataDir : String)
    (preferredPort : Option Nat) : Except AllocErr Nat :=
  match lookupReg reg dataDir with
  | some e =>
      if alive e.pid then Except.ok e.port
      else allocateFresh reg free preferredPort
  | none => allocateFresh reg free preferredPort

/-- `delete registry.instances[dataDir]`. -/
def deleteKey (reg : Registry) (k : String) : Registry :=
  reg.filter (fun e => e.1 ≠ k)

/-- The loop body of `cleanupStaleInstances` (part_001 lines 118-134): iterate
over a snapshot of the entries, deleting every entry whose pid is dead from
the live object and counting the deletions. -/
def cleanupLoop (alive : Nat → Bool) :
    List (String × RegEntry) → Registry → Nat → Registry × Nat
  | [], acc, n => (acc, n)
  | e :: rest, acc, n =>
      if alive e.2.pid then cleanupLoop alive rest acc n
      else cleanupLoop alive rest (deleteKey acc e.1) (n + 1)

/-- `cleanupStaleInstances()` (part_001 lines 118-134): returns the registry
left on disk and the count of removed entries. -/
def cleanupStaleInstances (reg : Registry) (alive : Nat → Bool) :
    Registry × Nat :=
  cleanupLoop alive reg reg 0

/-! ## `InstancePool` supervisor (src/src/pool.js lines 176-295) -/

/-- The pool state relevant to capacity: the keys of the `instances` map and
the configured bounds. -/
structure PoolSt where
  instances : List String
  maxInstances : Nat
  autoProvision : Bool
deriving DecidableEq

inductive PoolErr where
  | capacityExceeded : PoolErr
  | notProvisioned : PoolErr
deriving DecidableEq

/-- `InstancePool.getOrCreate(dbName)` (pool.js lines 191-231): existing
instances are returned; otherwise the capacity check runs before the
auto-provision check and before any construction, and on success the new name
is inserted.  (The subsequent `initialize()` call does not affect the map.) -/
def getOrCreate (p : PoolSt) (dbName : String) : Except PoolErr Unit × PoolSt :=
  if dbName ∈ p.instances then (Except.ok (), p)
  else if p.maxInstances ≤ p.instances.length then
    (Except.error PoolErr.capacityExceeded, p)
  else if p.autoProvision = false then
    (Except.error PoolErr.notProvisioned, p)
  else (Except.ok (), { p with instances := p.instances ++ [dbName] })

/-- `InstancePool.closeInstance(dbName)` (pool.js lines 267-273): closes and
deletes the named instance from the map. -/
def closeInstance (p : PoolSt) (dbName : String) : PoolSt :=
  { p with instances := p.instances.filter (fun n => n ≠ dbName) }

/-- Pool operations for whole-trace statements. -/
inductive POp where
  | create : String → POp
  | close : String → POp
deriving DecidableEq

def runPool (p : PoolSt) : List POp → PoolSt
  | [] => p
  | POp.create n :: rest => runPool (getOrCreate p n).2 rest
  | POp.close n :: rest => runPool (closeInstance p n) rest

/-! ## `InstancePool` constructor defaults (src/src/pool.js lines 176-186)

`options.baseDir || './data'`, `options.memoryMode || false`,
`options.maxInstances || 100`, `options.autoProvision !== false`.  A missing
field is `undefined` (modelled `none`); the falsy values of the field types
are `''`, `false` and `0`. -/

structure PoolOptions where
  baseDir : Option String
  memoryMode : Option Bool
  maxInstances : Option Nat
  autoProvision : Option Bool
deriving DecidableEq

structure PoolConfig where
  baseDir : String
  memoryMode : Bool
  maxInstances : Nat
  autoProvision : Bool
deriving DecidableEq

/-- JavaScript `v || d` for a possibly-absent string. -/
def jsOrString (v : Option String) (d : String) : String :=
  match v with
  | none => d
  | some s => if s = "" then d else s

/-- JavaScript `v || d` for a possibly-absent boolean. -/
def jsOrBool (v : Option Bool) (d : Bool) : Bool :=
  match v with
  | none => d
  | some b => if b = false then d else b

/-- JavaScript `v || d` for a possibly-absent number (the falsy number
representable here is `0`). -/
def jsOrNat (v : Option Nat) (d : Nat) : Nat :=
  match v with
  | none => d
  | some n => if n = 0 then d else n

/-- The `InstancePool` constructor's option handling. -/
def mkInstancePool (o : PoolOptions) : PoolConfig :=
  { baseDir := jsOrString o.baseDir "./data"
    memoryMode := jsOrBool o.memoryMode false
    maxInstances := jsOrNat o.maxInstances 100
    autoProvision := if o.autoProvision = some false then false else true }

/-! ## Ghost-log bookkeeping lemmas -/

theorem grantsOf_append_grant (l : List LEntry) (i : Nat) :
    grantsOf (l ++ [LEntry.grant i]) = grantsOf l ++ [i] := by
  induction l with
  | nil => rfl
  | cons e rest ih => cases e <;> simp [grantsOf, ih]

theorem grantsOf_append_unlock (l : List LEntry) :
    grantsOf (l ++ [LEntry.unlock]) = grantsOf l := by
  induction l with
  | nil => rfl
  | cons e rest ih => cases e <;> simp [grantsOf, ih]

theorem okLog_append_grant (l : List LEntry) (f : Bool) (i : Nat) :
    okLog (l ++ [LEntry.grant i]) f = (okLog l f && !flagAfter l f) := by
  induction l generalizing f with
  | nil => simp [okLog, flagAfter]
  | cons e rest ih => cases e <;> simp [okLog, flagAfter, ih, Bool.and_assoc]

theorem okLog_append_unlock (l : List LEntry) (f : Bool) :
    okLog (l ++ [LEntry.unlock]) f = okLog l f := by
  induction l generalizing f with
  | nil => simp [okLog]
  | cons e rest ih => cases e <;> simp [okLog, ih]

theorem flagAfter_append_grant (l : List LEntry) (f : Bool) (i : Nat) :
    flagAfter (l ++ [LEntry.grant i]) f = true := by
  induction l generalizing f with
  | nil => rfl
  | cons e rest ih => cases e <;> simp [flagAfter, ih]

theorem flagAfter_append_unlock (l : List LEntry) (f : Bool) :
    flagAfter (l ++ [LEntry.unlock]) f = false := by
  induction l generalizing f with
  | nil => rfl
  | cons e rest ih => cases e <;> simp [flagAfter, ih]

/-- Every action preserves well-separation of the ghost log together with
agreement between the replayed lock flag and the actual `locked` field: a
grant is only ever appended with the lock down. -/
theorem logOk_applyAct (s : St) (a : Act)
    (h1 : okLog s.log false = true) (h2 : flagAfter s.log false = s.locked) :
    okLog (applyAct s a).log false = true ∧
      flagAfter (applyAct s a).log false = (applyAct s a).locked := by
  cases a with
  | acq =>
    by_cases hl : s.locked = true
    · simp [applyAct, acquireStep, hl, h1, h2]
    · simp only [Bool.not_eq_true] at hl
      simp [applyAct, acquireStep, lock, hl, okLog_append_grant,
            flagAfter_append_grant, h1, h2]
  | unl =>
    cases hq : s.queue with
    | nil =>
      simp [applyAct, unlock, hq, okLog_append_unlock,
            flagAfter_append_unlock, h1]
    | cons v t =>
      by_cases hb : v ∈ s.busied <;>
        simp [applyAct, unlock, hq, hb, okLog_append_unlock,
              flagAfter_append_unlock, h1]
  | timeout w =>
    by_cases hw : w ∈ s.queue ∧ w ∉ s.busied <;>
      simp [applyAct, waitTimeout, hw, h1, h2]
  | resume =>
    cases hpd : s.pending with
    | nil => simp [applyAct, resumeLock, hpd, h1, h2]
    | cons v t =>
      by_cases hl : s.locked = true
      · simp [applyAct, resumeLock, hpd, hl, h1, h2]
      · simp only [Bool.not_eq_true] at hl
        simp [applyAct, resumeLock, hpd, hl, okLog_append_grant,
              flagAfter_append_grant, h1, h2]

theorem logOk_execFrom : ∀ (acts : List Act) (s : St),
    okLog s.log false = true → flagAfter s.log false = s.locked →
    okLog (execFrom s acts).log false = true ∧
      flagAfter (execFrom s acts).log false = (execFrom s acts).locked := by
  intro acts
  induction acts with
  | nil => intro s h1 h2; exact ⟨h1, h2⟩
  | cons a rest ih =>
    intro s h1 h2
    have h := logOk_applyAct s a h1 h2
    exact ih (applyAct s a) h.1 h.2

theorem okLog_sep_inner (l2 : List LEntry) (b : Nat) (l3 : List LEntry)
    (h : okLog (l2 ++ LEntry.grant b :: l3) true = true) :
    LEntry.unlock ∈ l2 := by
  cases l2 with
  | nil => simp [okLog] at h
  | cons e rest =>
    cases e with
    | grant a => simp [okLog] at h
    | unlock => exact List.mem_cons_self _ _

/-- In a well-separated log, two grants are always separated by an unlock. -/
theorem okLog_sep (l1 : List LEntry) (f : Bool) (l2 l3 : List LEntry) (a b : Nat)
    (h : okLog (l1 ++ LEntry.grant a :: l2 ++ LEntry.grant b :: l3) f = true) :
    LEntry.unlock ∈ l2 := by
  induction l1 generalizing f with
  | nil =>
    simp only [List.nil_append, okLog, Bool.and_eq_true] at h
    exact okLog_sep_inner l2 b l3 h.2
  | cons e rest ih =>
    cases e with
    | grant c =>
      simp only [List.cons_append, okLog, Bool.and_eq_true] at h
      exact ih true h.2
    | unlock =>
      simp only [List.cons_append, okLog] at h
      exact ih false h

/-- Claim C1: mutual exclusion of the instance lock.  For every action
sequence on one Managed Instance, the ghost log of successful acquisitions
and releases has an `unlock` between any two grants (no two acquisitions
succeed without an intervening release), and `lock()` on an already-locked
instance fails without replacing the holder and without granting. -/
theorem c1_mutual_exclusion :
    (∀ (acts : List Act) (l1 l2 l3 : List LEntry) (a b : Nat),
        (exec acts).log = l1 ++ LEntry.grant a :: l2 ++ LEntry.grant b :: l3 →
        LEntry.unlock ∈ l2) ∧
    (∀ (s : St) (sid : Nat), s.locked = true →
        (lock s sid).locked = s.locked ∧
        (lock s sid).activeSocket = s.activeSocket ∧
        grantsOf (lock s sid).log = grantsOf s.log) := by
  constructor
  · intro acts l1 l2 l3 a b heq
    have hinv := (logOk_execFrom acts st0 rfl rfl).1
    rw [show execFrom st0 acts = exec acts from rfl, heq] at hinv
    exact okLog_sep l1 false l2 l3 a b hinv
  · intro s sid hl
    simp [lock, hl]

/-- Witness for C1: a concrete run whose log has two grants separated by an
unlock, and a concrete locked state on which `lock()` fails harmlessly. -/
theorem c1_mutual_exclusion_witness :
    LEntry.unlock ∈ [LEntry.unlock] ∧
    ((lock { st0 with locked := true, activeSocket := some 7 } 9).locked =
        ({ st0 with locked := true, activeSocket := some 7 } : St).locked ∧
     (lock { st0 with locked := true, activeSocket := some 7 } 9).activeSocket =
        ({ st0 with locked := true, activeSocket := some 7 } : St).activeSocket ∧
     grantsOf (lock { st0 with locked := true, activeSocket := some 7 } 9).log =
        grantsOf ({ st0 with locked := true, activeSocket := some 7 } : St).log) :=
  ⟨c1_mutual_exclusion.1 [Act.acq, Act.unl, Act.acq] [] [LEntry.unlock] [] 0 1 rfl,
   c1_mutual_exclusion.2 _ 9 rfl⟩

/-! ## The arbitration invariant under the event-loop discipline -/

/-- Invariant of every reachable state of a scheduled run.

* `pend_le`, `pend_unlocked`: at most one promotion is ever in flight, and
  while it is, the instance is unlocked (so the promoted waiter's `lock`
  cannot throw).
* `no_err`: no promoted waiter has ever found the lock stolen.
* `pw`/`pp`/`pv`/`bw`/`bp`: waiting ids are strictly increasing (queue order
  equals issue order — entries are pushed at the tail and only ever shifted
  from the head, never spliced), promoted ids are strictly increasing (FIFO
  among queued waiters), every already-promoted id precedes every id still
  waiting, and all ids are below the id counter. -/
structure Inv (s : St) : Prop where
  pend_le : s.pending.length ≤ 1
  pend_unlocked : s.pending ≠ [] → s.locked = false
  no_err : s.err = false
  pw : (waiting s).Pairwise (· < ·)
  pp : s.promoted.Pairwise (· < ·)
  pv : ∀ p ∈ s.promoted, ∀ y ∈ waiting s, p < y
  bw : ∀ y ∈ waiting s, y < s.nextId
  bp : ∀ p ∈ s.promoted, p < s.nextId

theorem inv_st0 : Inv st0 := by
  refine { pend_le := ?_, pend_unlocked := ?_, no_err := rfl,
           pw := ?_, pp := ?_, pv := ?_, bw := ?_, bp := ?_ } <;>
    simp [st0, waiting]

theorem inv_acq (s : St) (h : Inv s) (hp : s.pending = []) :
    Inv (acquireStep s) := by
  by_cases hl : s.locked = true
  · have e : acquireStep s =
        { s with queue := s.queue ++ [s.nextId], nextId := s.nextId + 1 } := by
      simp [acquireStep, hl]
    rw [e]
    refine { pend_le := h.pend_le, pend_unlocked := ?_,
             no_err := h.no_err, pw := ?_, pp := h.pp, pv := ?_, bw := ?_,
             bp := ?_ }
    · intro hne; exact absurd hp hne
    · simp only [waiting, hp, List.nil_append]
      refine List.pairwise_append.mpr ⟨?_, List.pairwise_singleton _ _, ?_⟩
      · simpa [waiting, hp] using h.pw
      · intro y hy z hz
        rw [List.mem_singleton] at hz
        subst hz
        exact h.bw y (by simp [waiting, hp, hy])
    · intro p hpm y hy
      simp only [waiting, hp, List.nil_append, List.mem_append,
                 List.mem_singleton] at hy
      rcases hy with hy | rfl
      · exact h.pv p hpm y (by simp [waiting, hp, hy])
      · exact h.bp p hpm
    · intro y hy
      simp only [waiting, hp, List.nil_append, List.mem_append,
                 List.mem_singleton] at hy
      rcases hy with hy | rfl
      · exact Nat.lt_succ_of_lt (h.bw y (by simp [waiting, hp, hy]))
      · exact Nat.lt_succ_self _
    · intro p hpm; exact Nat.lt_succ_of_lt (h.bp p hpm)
  · simp only [Bool.not_eq_true] at hl
    have e : acquireStep s =
        { s with nextId := s.nextId + 1, locked := true,
                 activeSocket := some s.nextId,
                 log := s.log ++ [LEntry.grant s.nextId] } := by
      simp [acquireStep, lock, hl]
    rw [e]
    refine { pend_le := h.pend_le, pend_unlocked := ?_,
             no_err := h.no_err, pw := h.pw, pp := h.pp, pv := h.pv,
             bw := ?_, bp := ?_ }
    · intro hne; exact absurd hp hne
    · intro y hy; exact Nat.lt_succ_of_lt (h.bw y hy)
    · intro p hpm; exact Nat.lt_succ_of_lt (h.bp p hpm)

theorem inv_unl (s : St) (h : Inv s) (hp : s.pending = []) :
    Inv (unlock s) := by
  cases hq : s.queue with
  | nil =>
    have e : unlock s =
        { s with locked := false, activeSocket := none,
                 log := s.log ++ [LEntry.unlock] } := by
      simp [unlock, hq]
    rw [e]
    exact { pend_le := h.pend_le, pend_unlocked := fun _ => rfl,
            no_err := h.no_err, pw := h.pw, pp := h.pp, pv := h.pv,
            bw := h.bw, bp := h.bp }
  | cons w t =>
    have hw : waiting s = w :: t := by simp [waiting, hp, hq]
    by_cases hb : w ∈ s.busied
    · -- dead head: the release is consumed without promoting anybody
      have e : unlock s =
          { s with locked := false, activeSocket := none,
                   log := s.log ++ [LEntry.unlock], queue := t } := by
        simp [unlock, hq, hb]
      rw [e]
      have htail : ∀ y ∈ t, y ∈ waiting s := by
        intro y hy; rw [hw]; exact List.mem_cons_of_mem _ hy
      refine { pend_le := h.pend_le, pend_unlocked := fun _ => rfl,
               no_err := h.no_err, pw := ?_, pp := h.pp, pv := ?_,
               bw := ?_, bp := h.bp }
      · show (s.pending ++ t).Pairwise (· < ·)
        rw [hp, List.nil_append]
        have := h.pw
        rw [hw] at this
        exact (List.pairwise_cons.mp this).2
      · intro p hpm y hy
        show p < y
        rw [waiting, hp, List.nil_append] at hy
        exact h.pv p hpm y (htail y hy)
      · intro y hy
        rw [waiting, hp, List.nil_append] at hy
        exact h.bw y (htail y hy)
    · -- live head: exactly the head waiter is handed to the microtask queue
      have e : unlock s =
          { s with locked := false, activeSocket := none,
                   log := s.log ++ [LEntry.unlock], queue := t,
                   pending := s.pending ++ [w] } := by
        simp [unlock, hq, hb]
      rw [e]
      have hwait : s.pending ++ [w] ++ t = waiting s := by
        simp [waiting, hp, hq]
      refine { pend_le := ?_, pend_unlocked := fun _ => rfl,
               no_err := h.no_err, pw := ?_, pp := h.pp, pv := ?_,
               bw := ?_, bp := h.bp }
      · simp [hp]
      · show (s.pending ++ [w] ++ t).Pairwise (· < ·)
        rw [hwait]; exact h.pw
      · show ∀ p ∈ s.promoted, ∀ y ∈ s.pending ++ [w] ++ t, p < y
        rw [hwait]; exact h.pv
      · show ∀ y ∈ s.pending ++ [w] ++ t, y < s.nextId
        rw [hwait]; exact h.bw

theorem inv_timeout (s : St) (w : Nat) (h : Inv s) :
    Inv (waitTimeout s w) := by
  by_cases hw : w ∈ s.queue ∧ w ∉ s.busied
  · have e : waitTimeout s w = { s with busied := s.busied ++ [w] } := by
      simp [waitTimeout, hw]
    rw [e]
    exact { pend_le := h.pend_le, pend_unlocked := h.pend_unlocked,
            no_err := h.no_err, pw := h.pw, pp := h.pp, pv := h.pv,
            bw := h.bw, bp := h.bp }
  · have e : waitTimeout s w = s := by simp [waitTimeout, hw]
    rw [e]; exact h

theorem inv_resume (s : St) (h : Inv s) : Inv (resumeLock s) := by
  cases hpd : s.pending with
  | nil =>
    have e : resumeLock s = s := by simp [resumeLock, hpd]
    rw [e]; exact h
  | cons w t =>
    have ht : t = [] := by
      have := h.pend_le
      rw [hpd] at this
      simp at this
      exact this
    subst ht
    have hlf : s.locked = false := h.pend_unlocked (by simp [hpd])
    have e : resumeLock s =
        { s with pending := [], locked := true, activeSocket := some w,
                 log := s.log ++ [LEntry.grant w],
                 promoted := s.promoted ++ [w] } := by
      simp [resumeLock, hpd, hlf]
    rw [e]
    have hwait : waiting s = w :: s.queue := by simp [waiting, hpd]
    have hhead : ∀ y ∈ s.queue, w < y := by
      have := h.pw
      rw [hwait] at this
      exact (List.pairwise_cons.mp this).1
    refine { pend_le := by simp, pend_unlocked := ?_,
             no_err := h.no_err, pw := ?_, pp := ?_, pv := ?_, bw := ?_,
             bp := ?_ }
    · intro hne; exact absurd rfl hne
    · show ([] ++ s.queue).Pairwise (· < ·)
      have := h.pw
      rw [hwait] at this
      simpa using (List.pairwise_cons.mp this).2
    · refine List.pairwise_append.mpr ⟨h.pp, List.pairwise_singleton _ _, ?_⟩
      intro p hpm z hz
      rw [List.mem_singleton] at hz
      rw [hz]
      exact h.pv p hpm w (by rw [hwait]; exact List.mem_cons_self _ _)
    · intro p hpm y hy
      simp only [waiting, List.nil_append] at hy
      rcases List.mem_append.mp hpm with hpm | hpm
      · exact h.pv p hpm y (by rw [hwait]; exact List.mem_cons_of_mem _ hy)
      · rw [List.mem_singleton] at hpm
        rw [hpm]
        exact hhead y hy
    · intro y hy
      simp only [waiting, List.nil_append] at hy
      exact h.bw y (by rw [hwait]; exact List.mem_cons_of_mem _ hy)
    · intro p hpm
      rcases List.mem_append.mp hpm with hpm | hpm
      · exact h.bp p hpm
      · rw [List.mem_singleton] at hpm
        rw [hpm]
        exact h.bw w (by rw [hwait]; exact List.mem_cons_self _ _)

/-- The invariant holds along every event-loop-scheduled run. -/
theorem inv_execFrom : ∀ (acts : List Act) (s : St),
    Inv s → schedFrom s acts = true → Inv (execFrom s acts) := by
  intro acts
  induction acts with
  | nil => intro s h _; exact h
  | cons a rest ih =>
    intro s h hsch
    simp only [schedFrom, Bool.and_eq_true] at hsch
    obtain ⟨hcond, hrest⟩ := hsch
    have h' : Inv (applyAct s a) := by
      cases a with
      | acq =>
        simp only [Act.isExternal, if_true] at hcond
        exact inv_acq s h (List.isEmpty_iff.mp hcond)
      | unl =>
        simp only [Act.isExternal, if_true] at hcond
        exact inv_unl s h (List.isEmpty_iff.mp hcond)
      | timeout w => exact inv_timeout s w h
      | resume => exact inv_resume s h
    exact ih (applyAct s a) h' hrest

/-- On a scheduled, timeout-free run no dead entry exists and a free
instance always has an empty queue: the spec's no-free-window property,
which a fired wait timer destroys (see the C2 counterexample). -/
theorem nw_execFrom : ∀ (acts : List Act) (s : St),
    Inv s → NWindow s → schedFrom s acts = true → timeoutFree acts = true →
    NWindow (execFrom s acts) := by
  intro acts
  induction acts with
  | nil => intro s _ hnw _ _; exact hnw
  | cons a rest ih =>
    intro s hInv hnw hsch htf
    simp only [schedFrom, Bool.and_eq_true] at hsch
    obtain ⟨hcond, hrest⟩ := hsch
    simp only [timeoutFree, List.all_cons, Bool.and_eq_true,
               Bool.not_eq_true'] at htf
    have htf' : timeoutFree rest = true := htf.2
    have hInv' : Inv (applyAct s a) := by
      cases a with
      | acq =>
        simp only [Act.isExternal, if_true] at hcond
        exact inv_acq s hInv (List.isEmpty_iff.mp hcond)
      | unl =>
        simp only [Act.isExternal, if_true] at hcond
        exact inv_unl s hInv (List.isEmpty_iff.mp hcond)
      | timeout w => exact inv_timeout s w hInv
      | resume => exact inv_resume s hInv
    have hnw' : NWindow (applyAct s a) := by
      cases a with
      | acq =>
        simp only [Act.isExternal, if_true] at hcond
        have hp := List.isEmpty_iff.mp hcond
        by_cases hl : s.locked = true
        · have e : applyAct s Act.acq =
              { s with queue := s.queue ++ [s.nextId],
                       nextId := s.nextId + 1 } := by
            simp [applyAct, acquireStep, hl]
          rw [e]
          exact ⟨hnw.1, fun _ hlf => absurd hlf (by simp [hl])⟩
        · simp only [Bool.not_eq_true] at hl
          have e : applyAct s Act.acq =
              { s with nextId := s.nextId + 1, locked := true,
                       activeSocket := some s.nextId,
                       log := s.log ++ [LEntry.grant s.nextId] } := by
            simp [applyAct, acquireStep, lock, hl]
          rw [e]
          exact ⟨hnw.1, fun _ hlf => by simp at hlf⟩
      | unl =>
        simp only [Act.isExternal, if_true] at hcond
        have hp := List.isEmpty_iff.mp hcond
        cases hq : s.queue with
        | nil =>
          have e : applyAct s Act.unl =
              { s with locked := false, activeSocket := none,
                       log := s.log ++ [LEntry.unlock] } := by
            simp [applyAct, unlock, hq]
          rw [e]
          exact ⟨hnw.1, fun _ _ => hq⟩
        | cons w t =>
          have hb : w ∉ s.busied := by rw [hnw.1]; exact List.not_mem_nil w
          have e : applyAct s Act.unl =
              { s with locked := false, activeSocket := none,
                       log := s.log ++ [LEntry.unlock], queue := t,
                       pending := s.pending ++ [w] } := by
            simp [applyAct, unlock, hq, hb]
          rw [e]
          refine ⟨hnw.1, ?_⟩
          intro hpe
          simp [hp] at hpe
      | timeout w => simp [Act.isTimeout] at htf
      | resume =>
        cases hpd : s.pending with
        | nil =>
          have e : applyAct s Act.resume = s := by
            simp [applyAct, resumeLock, hpd]
          rw [e]; exact hnw
        | cons w t =>
          have hlf : s.locked = false :=
            hInv.pend_unlocked (by simp [hpd])
          have e : applyAct s Act.resume =
              { s with pending := t, locked := true,
                       activeSocket := some w,
                       log := s.log ++ [LEntry.grant w],
                       promoted := s.promoted ++ [w] } := by
            simp [applyAct, resumeLock, hpd, hlf]
          rw [e]
          exact ⟨hnw.1, fun _ hlf2 => by simp at hlf2⟩
    exact ih (applyAct s a) hInv' hnw' hrest htf'

/-- Counterexample to claim C2 at a concrete input.  Run: holder 0 locks,
waiters 1 and 2 queue, waiter 1's timer fires (its entry — not spliced, see
`waitTimeout` — stays at the head of the queue), then holder 0 releases.
The release shifts the dead entry and promotes nobody: immediately after the
release the instance is observably free (`locked = false`, no promotion
pending) while waiter 2 is still queued — refuting "exactly the head waiter
is promoted" and "no other acquire request can observe the instance as free
between the release and the promoted waiter taking the lock".  The next
acquire (id 3, issued after waiter 2 enqueued) then takes the lock ahead of
waiter 2.  The whole trace respects the event-loop discipline. -/
theorem c2_counterexample :
    scheduled [Act.acq, Act.acq, Act.acq, Act.timeout 1, Act.unl,
               Act.acq] = true ∧
    (exec [Act.acq, Act.acq, Act.acq, Act.timeout 1, Act.unl]).locked =
      false ∧
    (exec [Act.acq, Act.acq, Act.acq, Act.timeout 1, Act.unl]).queue = [2] ∧
    (exec [Act.acq, Act.acq, Act.acq, Act.timeout 1, Act.unl]).pending =
      [] ∧
    (exec [Act.acq, Act.acq, Act.acq, Act.timeout 1, Act.unl,
           Act.acq]).activeSocket = some 3 ∧
    (exec [Act.acq, Act.acq, Act.acq, Act.timeout 1, Act.unl,
           Act.acq]).queue = [2] ∧
    grantsOf (exec [Act.acq, Act.acq, Act.acq, Act.timeout 1, Act.unl,
                    Act.acq]).log = [0, 3] :=
  ⟨rfl, rfl, rfl, rfl, rfl, rfl, rfl⟩

/-- Claim C2 as amended: `unlock()` on a non-empty queue always shifts
exactly the head entry; when that head is a live waiter it alone is handed
to the microtask queue, but when it is a timed-out entry (which lingers in
the queue — the splice in `waitForFree` is dead code) the release is
consumed without promoting anybody and the instance is left free even if
waiters remain queued.  Along every event-loop-scheduled run, queued waiters
that are granted the lock are granted in the order their acquire calls were
enqueued (the `promoted` ghost log is strictly increasing in issue order)
and no promoted waiter's `lock` ever throws; and on scheduled runs in which
no wait timer fires, no request ever observes the instance free while
waiters remain queued. -/
theorem c2_fifo_amended :
    (∀ (s : St) (w : Nat) (t : List Nat), s.queue = w :: t → w ∉ s.busied →
        (unlock s).queue = t ∧ (unlock s).pending = s.pending ++ [w]) ∧
    (∀ (s : St) (w : Nat) (t : List Nat), s.queue = w :: t → w ∈ s.busied →
        (unlock s).queue = t ∧ (unlock s).pending = s.pending ∧
        (unlock s).locked = false) ∧
    (∀ acts : List Act, scheduled acts = true →
        (exec acts).promoted.Pairwise (· < ·) ∧ (exec acts).err = false) ∧
    (∀ acts : List Act, scheduled acts = true → timeoutFree acts = true →
        (exec acts).pending = [] → (exec acts).locked = false →
        (exec acts).queue = []) := by
  refine ⟨?_, ?_, ?_, ?_⟩
  · intro s w t hq hb
    simp [unlock, hq, hb]
  · intro s w t hq hb
    simp [unlock, hq, hb]
  · intro acts hsch
    have h := inv_execFrom acts st0 inv_st0 hsch
    exact ⟨h.pp, h.no_err⟩
  · intro acts hsch htf
    exact (nw_execFrom acts st0 inv_st0 ⟨rfl, fun _ _ => rfl⟩ hsch htf).2

/-- Witness for the amended C2: a release over a live head, a release over a
dead (timed-out) head, and the concrete scheduled run lock A, queue B,
release, promote B. -/
theorem c2_fifo_amended_witness :
    ((unlock (St.mk true (some 9) [5] [] 6 [] [] [] false)).queue = [] ∧
     (unlock (St.mk true (some 9) [5] [] 6 [] [] [] false)).pending =
       (St.mk true (some 9) [5] [] 6 [] [] [] false).pending ++ [5]) ∧
    ((unlock (St.mk true (some 9) [5] [] 6 [] [5] [] false)).queue = [] ∧
     (unlock (St.mk true (some 9) [5] [] 6 [] [5] [] false)).pending =
       (St.mk true (some 9) [5] [] 6 [] [5] [] false).pending ∧
     (unlock (St.mk true (some 9) [5] [] 6 [] [5] [] false)).locked =
       false) ∧
    ((exec [Act.acq, Act.acq, Act.unl, Act.resume]).promoted.Pairwise
        (· < ·) ∧
     (exec [Act.acq, Act.acq, Act.unl, Act.resume]).err = false) ∧
    ((exec [Act.acq, Act.acq, Act.unl, Act.resume]).pending = [] →
     (exec [Act.acq, Act.acq, Act.unl, Act.resume]).locked = false →
     (exec [Act.acq, Act.acq, Act.unl, Act.resume]).queue = []) :=
  ⟨c2_fifo_amended.1 _ 5 [] rfl (by decide),
   c2_fifo_amended.2.1 _ 5 [] rfl (by decide),
   c2_fifo_amended.2.2.1 [Act.acq, Act.acq, Act.unl, Act.resume] rfl,
   c2_fifo_amended.2.2.2 [Act.acq, Act.acq, Act.unl, Act.resume] rfl rfl⟩

/-- Claim C6 (code bug exhibited): the claim — and the evident intent of the
`findIndex`/`splice` lines in `waitForFree` — is that a timed-out waiter's
entry is removed from the queue.  In the source the lookup
`findIndex((item) => item.resolve === resolve)` compares the stored wrapper
closure against the raw resolver and never matches, so the splice is dead
code.  On the concrete run: holder 0 locks and waiter 1 queues; when waiter
1's timer fires it is rejected with the Busy error (`busied = [1]`) but its
entry remains in the queue (`queue = [1]`); holder 0's release then shifts
the dead entry — resolving its already-rejected promise is a no-op — so the
release is spuriously consumed: afterwards the queue and pending are empty,
the instance is free, and the only grant ever made is holder 0's. -/
theorem c6_timeout_lingering :
    (exec [Act.acq, Act.acq, Act.timeout 1]).busied = [1] ∧
    (exec [Act.acq, Act.acq, Act.timeout 1]).queue = [1] ∧
    (exec [Act.acq, Act.acq, Act.timeout 1, Act.unl]).queue = [] ∧
    (exec [Act.acq, Act.acq, Act.timeout 1, Act.unl]).pending = [] ∧
    (exec [Act.acq, Act.acq, Act.timeout 1, Act.unl]).locked = false ∧
    grantsOf (exec [Act.acq, Act.acq, Act.timeout 1, Act.unl]).log = [0] :=
  ⟨rfl, rfl, rfl, rfl, rfl, rfl⟩

/-! ## Claim C3: double release on error-then-close (code bug) -/

/-- Claim C3 (code bug exhibited): `lock` binds `unlock` to both the `close`
and the `error` notification with two independent `once` registrations and no
guard, so a holder whose socket emits `error` followed by `close` — the
normal Node.js error path — triggers `unlock()` twice, not exactly once.  On
the concrete run where holder 0 has waiters 1 and 2 queued, the two unlocks
of holder 0's socket first promote waiter 1 and then — while waiter 1 still
holds the instance and has not terminated — strip its lock and promote
waiter 2, leaving holder 2 active after three grants but only holder 0's two
notifications. -/
theorem c3_double_release :
    onceUnlockCalls [SockEv.error, SockEv.close] = 2 ∧
    (exec [Act.acq, Act.acq, Act.acq, Act.unl, Act.resume, Act.unl,
           Act.resume]).log =
      [LEntry.grant 0, LEntry.unlock, LEntry.grant 1, LEntry.unlock,
       LEntry.grant 2] ∧
    (exec [Act.acq, Act.acq, Act.acq, Act.unl, Act.resume, Act.unl,
           Act.resume]).activeSocket = some 2 ∧
    (exec [Act.acq, Act.acq, Act.acq, Act.unl, Act.resume, Act.unl,
           Act.resume]).locked = true :=
  ⟨rfl, rfl, rfl, rfl⟩

/-! ## Claims C4 and C5: `initialize()` failure and concurrency -/

/-- Counterexample to claim C4: a first `initialize()` whose ready signal
rejects propagates the error, but the engine handle does NOT remain absent —
`this.db` was assigned before the await, so the instance keeps the
half-booted handle and a second `initialize()` returns it immediately with
no new boot (the boot counter stays at 1) and with the handle still
unready. -/
theorem c4_counterexample :
    (initInst false mInst0).1 = Except.error () ∧
    (initInst false mInst0).2.db = some 0 ∧
    (initInst false mInst0).2.db ≠ none ∧
    (initInst false (initInst false mInst0).2).1 = Except.ok 0 ∧
    (initInst false (initInst false mInst0).2).2.bootCount = 1 ∧
    (initInst false (initInst false mInst0).2).2.ready = false :=
  ⟨rfl, rfl, by decide, rfl, rfl, rfl⟩

/-- Claim C4 as amended: when the first `initialize()` fails at the ready
await, the error is propagated to the caller, but the engine handle remains
assigned (a half-booted handle, never marked ready) and every subsequent
`initialize()` call returns that same handle without re-attempting the
boot. -/
theorem c4_amended : ∀ s : MInst, s.db = none →
    (initInst false s).1 = Except.error () ∧
    (initInst false s).2.db = some s.bootCount ∧
    (initInst false s).2.ready = false ∧
    (∀ b : Bool,
      initInst b (initInst false s).2 =
        (Except.ok s.bootCount, (initInst false s).2)) := by
  intro s hdb
  simp [initInst, initStep1, initStep2, hdb]

/-- Witness for the amended C4, at the freshly constructed instance. -/
theorem c4_amended_witness :
    (initInst false mInst0).1 = Except.error () ∧
    (initInst false mInst0).2.db = some mInst0.bootCount ∧
    (initInst false mInst0).2.ready = false ∧
    (∀ b : Bool,
      initInst b (initInst false mInst0).2 =
        (Except.ok mInst0.bootCount, (initInst false mInst0).2)) :=
  c4_amended mInst0 rfl

/-- Counterexample to claim C5: two concurrent `initialize()` calls.  The
first caller runs the synchronous phase (assigning `this.db`) and suspends
on `waitReady`; the second caller then runs entirely inside that window: it
hits the `if (this.db) return this.db` early return and comes back with the
in-flight handle while `ready` is still false — it does NOT await the
completion of the in-flight boot.  (The boot itself runs only once: the boot
counter is 1.) -/
theorem c5_counterexample :
    (initInst true (bootStarted mInst0)).1 = Except.ok 0 ∧
    (bootStarted mInst0).ready = false ∧
    (initInst true (bootStarted mInst0)).2.ready = false ∧
    (bootStarted mInst0).bootCount = 1 :=
  ⟨rfl, rfl, rfl, rfl⟩

/-- Claim C5 as amended: a second `initialize()` after a completed (or even
in-flight) first one returns the same engine handle with no state change and
no new boot side effects, and two concurrent `initialize()` calls run the
boot exactly once — the handle is assigned synchronously before the first
suspension point, so the later caller never re-boots; however the later
caller returns the in-flight handle immediately (its return leaves `ready`
untouched) rather than awaiting the boot's completion. -/
theorem c5_amended : ∀ (s : MInst) (h : Nat) (b : Bool),
    (s.db = some h → initInst b s = (Except.ok h, s)) ∧
    (∀ s', initStep1 s = InitPhase.inflight h s' →
        s'.ready = false ∧ s'.db = some h ∧
        initInst b s' = (Except.ok h, s')) := by
  intro s h b
  constructor
  · intro hdb
    simp [initInst, initStep1, hdb]
  · intro s' hin
    cases hdb : s.db with
    | some x => simp [initStep1, hdb] at hin
    | none =>
      simp only [initStep1, hdb, InitPhase.inflight.injEq] at hin
      obtain ⟨hh, hs⟩ := hin
      rw [← hs, ← hh]
      exact ⟨rfl, rfl, by simp [initInst, initStep1]⟩

/-- Witness for the amended C5: the idempotent second call on a booted
instance, and the concurrent second call inside the in-flight window of the
fresh instance. -/
theorem c5_amended_witness :
    initInst true { db := some 3, ready := true, bootCount := 1 } =
      (Except.ok 3, { db := some 3, ready := true, bootCount := 1 }) ∧
    ((bootStarted mInst0).ready = false ∧
     (bootStarted mInst0).db = some 0 ∧
     initInst true (bootStarted mInst0) = (Except.ok 0, bootStarted mInst0)) :=
  ⟨(c5_amended { db := some 3, ready := true, bootCount := 1 } 3 true).1 rfl,
   (c5_amended mInst0 0 true).2 (bootStarted mInst0) rfl⟩

/-! ## Claim C7: preferred-port policy of the allocator -/

theorem scanPorts_ok {reg : Registry} {free : Nat → Bool} {q : Nat}
    (h : scanPorts reg free = some q) :
    free q = true ∧ isPortInRegistry reg q = false ∧
      PORT_RANGE_START ≤ q ∧ q ≤ PORT_RANGE_END := by
  have h1 := List.find?_some h
  have h2 := List.mem_of_find?_eq_some h
  simp only [Bool.and_eq_true, Bool.not_eq_true'] at h1
  rcases List.mem_map.mp h2 with ⟨i, hi, rfl⟩
  rw [List.mem_range] at hi
  refine ⟨h1.1, h1.2, ?_, ?_⟩
  · exact Nat.le_add_right _ _
  · simp only [PORT_RANGE_START, PORT_RANGE_END] at hi ⊢
    omega

theorem allocateFresh_oor {reg : Registry} {free : Nat → Bool} {p : Nat}
    (h : p < PORT_RANGE_START ∨ PORT_RANGE_END < p) :
    allocateFresh reg free (some p) = Except.error AllocErr.outOfRange := by
  simp [allocateFresh, h]

theorem allocateFresh_ok {reg : Registry} {free : Nat → Bool}
    {pref : Option Nat} {p : Nat}
    (h : allocateFresh reg free pref = Except.ok p) :
    free p = true ∧ isPortInRegistry reg p = false ∧
      PORT_RANGE_START ≤ p ∧ p ≤ PORT_RANGE_END := by
  cases pref with
  | none =>
    simp only [allocateFresh] at h
    cases hscan : scanPorts reg free with
    | none => rw [hscan] at h; cases h
    | some q =>
      rw [hscan] at h
      injection h with hq
      rw [← hq]
      exact scanPorts_ok hscan
  | some p0 =>
    simp only [allocateFresh] at h
    by_cases hr : p0 < PORT_RANGE_START ∨ PORT_RANGE_END < p0
    · rw [if_pos hr] at h; cases h
    · rw [if_neg hr] at h
      by_cases hok : free p0 && !isPortInRegistry reg p0
      · rw [if_pos hok] at h
        injection h with hq
        simp only [Bool.and_eq_true, Bool.not_eq_true'] at hok
        push_neg at hr
        rw [← hq]
        exact ⟨hok.1, hok.2, Nat.le_of_not_lt (by omega), hr.2⟩
      · rw [if_neg hok] at h
        cases hscan : scanPorts reg free with
        | none => rw [hscan] at h; cases h
        | some q =>
          rw [hscan] at h
          injection h with hq
          rw [← hq]
          exact scanPorts_ok hscan

/-- Counterexample to claim C7 (the concrete-scenario conjunct): preferred
port 12005 requested while the registry holds exactly one stale entry
claiming 12005 for a dead process and every port is physically free.  The
allocator does skip 12005, but its fallback scan starts at 12000, so the
result is 12000 — not a candidate ≥ 12006 as the claim states. -/
theorem c7_counterexample :
    allocatePort [("other", { port := 12005, pid := 99 })] (fun _ => false)
        (fun _ => true) "mydb" (some 12005) = Except.ok 12000 ∧
    isPortInRegistry [("other", { port := 12005, pid := 99 })] 12005 = true ∧
    ¬ 12006 ≤ 12000 :=
  ⟨rfl, rfl, by decide⟩

/-- Claim C7 as amended: in any allocation that does not short-circuit to a
live registry entry for the requested data directory, (a) a preferred port
outside `[12000, 12999]` fails with the out-of-range error, and (b) any port
the allocator returns — preferred or scanned — passes the TCP probe, is
claimed by no registry entry (live or stale, so a stale claim on the
preferred port makes the allocator skip it), and lies inside
`[12000, 12999]`; the fallback after a rejected preferred port is the
ascending scan from 12000, not from the preferred port. -/
theorem c7_amended : ∀ (reg : Registry) (alive free : Nat → Bool)
    (dataDir : String),
    (∀ e, lookupReg reg dataDir = some e → alive e.pid = false) →
    (∀ p, (p < PORT_RANGE_START ∨ PORT_RANGE_END < p) →
        allocatePort reg alive free dataDir (some p) =
          Except.error AllocErr.outOfRange) ∧
    (∀ (pref : Option Nat) (p : Nat),
        allocatePort reg alive free dataDir pref = Except.ok p →
        free p = true ∧ isPortInRegistry reg p = false ∧
          PORT_RANGE_START ≤ p ∧ p ≤ PORT_RANGE_END) := by
  intro reg alive free dataDir hstale
  constructor
  · intro p hp
    cases hlk : lookupReg reg dataDir with
    | none => simp only [allocatePort, hlk]; exact allocateFresh_oor hp
    | some e =>
      simp only [allocatePort, hlk, hstale e hlk, if_false]
      exact allocateFresh_oor hp
  · intro pref p h
    cases hlk : lookupReg reg dataDir with
    | none =>
      simp only [allocatePort, hlk] at h
      exact allocateFresh_ok h
    | some e =>
      simp only [allocatePort, hlk, hstale e hlk, if_false] at h
      exact allocateFresh_ok h

/-- Witness for the amended C7: a stale entry for the requested directory
itself; an out-of-range preferred port is rejected. -/
theorem c7_amended_witness :
    allocatePort [("mydb", { port := 12005, pid := 99 })] (fun _ => false)
        (fun _ => true) "mydb" (some 13500) =
      Except.error AllocErr.outOfRange :=
  (c7_amended [("mydb", { port := 12005, pid := 99 })] (fun _ => false)
      (fun _ => true) "mydb" (fun e _ => rfl)).1 13500 (by decide)

/-! ## Claim C8: pool capacity invariant -/

theorem getOrCreate_max (p : PoolSt) (n : String) :
    ((getOrCreate p n).2).maxInstances = p.maxInstances := by
  by_cases h1 : n ∈ p.instances <;>
    by_cases h2 : p.maxInstances ≤ p.instances.length <;>
      by_cases h3 : p.autoProvision = false <;>
        simp [getOrCreate, h1, h2, h3]

theorem getOrCreate_len (p : PoolSt) (n : String)
    (h : p.instances.length ≤ p.maxInstances) :
    ((getOrCreate p n).2).instances.length ≤ p.maxInstances := by
  by_cases h1 : n ∈ p.instances
  · simpa [getOrCreate, h1] using h
  · by_cases h2 : p.maxInstances ≤ p.instances.length
    · simpa [getOrCreate, h1, h2] using h
    · by_cases h3 : p.autoProvision = false
      · simpa [getOrCreate, h1, h2, h3] using h
      · simp [getOrCreate, h1, h2, h3]
        omega

theorem runPool_inv : ∀ (ops : List POp) (p : PoolSt),
    p.instances.length ≤ p.maxInstances →
    (runPool p ops).instances.length ≤ p.maxInstances ∧
      (runPool p ops).maxInstances = p.maxInstances := by
  intro ops
  induction ops with
  | nil => intro p h; exact ⟨h, rfl⟩
  | cons op rest ih =>
    intro p h
    cases op with
    | create n =>
      have h' := getOrCreate_len p n h
      have hm := getOrCreate_max p n
      have := ih (getOrCreate p n).2 (by rw [hm]; exact h')
      rw [hm] at this
      exact ⟨this.1, this.2⟩
    | close n =>
      have h' : (closeInstance p n).instances.length ≤ p.maxInstances :=
        le_trans (List.length_filter_le _ _) h
      have := ih (closeInstance p n) h'
      exact ⟨this.1, this.2⟩

/-- Claim C8: pool capacity invariant.  Along any sequence of
`getOrCreate`/`closeInstance` operations the number of managed instances
never exceeds `maxInstances`; `getOrCreate` for an absent name on a full pool
fails with CapacityExceeded leaving the pool untouched (nothing is
constructed); and in the `maxInstances = 1` scenario, "a" is created, "b" is
refused with CapacityExceeded, and after `closeInstance("a")` the creation of
"b" succeeds. -/
theorem c8_capacity :
    (∀ (ops : List POp) (p : PoolSt),
        p.instances.length ≤ p.maxInstances →
        (runPool p ops).instances.length ≤ (runPool p ops).maxInstances) ∧
    (∀ (p : PoolSt) (n : String), n ∉ p.instances →
        p.maxInstances ≤ p.instances.length →
        getOrCreate p n = (Except.error PoolErr.capacityExceeded, p)) ∧
    ((getOrCreate (PoolSt.mk [] 1 true) "a").1 = Except.ok () ∧
     (getOrCreate (getOrCreate (PoolSt.mk [] 1 true) "a").2 "b").1 =
          Except.error PoolErr.capacityExceeded ∧
     getOrCreate
        (closeInstance (getOrCreate (PoolSt.mk [] 1 true) "a").2 "a") "b" =
          (Except.ok (), PoolSt.mk ["b"] 1 true)) := by
  refine ⟨?_, ?_, rfl, rfl, rfl⟩
  · intro ops p h
    have := runPool_inv ops p h
    rw [this.2]
    exact this.1
  · intro p n h1 h2
    simp [getOrCreate, h1, h2]

/-- Witness for C8: the invariant run on the concrete two-creation trace over
the capacity-1 pool, and the concrete full-pool refusal. -/
theorem c8_capacity_witness :
    (runPool (PoolSt.mk [] 1 true)
        [POp.create "a", POp.create "b"]).instances.length ≤
      (runPool (PoolSt.mk [] 1 true)
        [POp.create "a", POp.create "b"]).maxInstances ∧
    getOrCreate (PoolSt.mk ["a"] 1 true) "b" =
      (Except.error PoolErr.capacityExceeded, PoolSt.mk ["a"] 1 true) :=
  ⟨c8_capacity.1 [POp.create "a", POp.create "b"] _ (by decide),
   c8_capacity.2.1 _ "b" (by decide) (by decide)⟩

/-! ## Claim C9: stale cleanup is exact -/

theorem deleteKey_of_away (l : Registry) (k : String)
    (h : ∀ e ∈ l, e.1 ≠ k) : deleteKey l k = l := by
  apply List.filter_eq_self.mpr
  intro e he
  simpa using h e he

theorem cleanupLoop_eq (alive : Nat → Bool) :
    ∀ (rest front : Registry) (n : Nat),
      (∀ a ∈ front, ∀ b ∈ rest, a.1 ≠ b.1) →
      (rest.map Prod.fst).Nodup →
      cleanupLoop alive rest (front ++ rest) n =
        (front ++ rest.filter (fun e => alive e.2.pid),
         n + (rest.filter (fun e => !alive e.2.pid)).length) := by
  intro rest
  induction rest with
  | nil =>
    intro front n _ _
    simp [cleanupLoop]
  | cons e rest ih =>
    intro front n hdisj hnd
    rw [List.map_cons, List.nodup_cons] at hnd
    by_cases ha : alive e.2.pid = true
    · have step : cleanupLoop alive (e :: rest) (front ++ e :: rest) n =
          cleanupLoop alive rest ((front ++ [e]) ++ rest) n := by
        rw [cleanupLoop, if_pos ha]
        rw [List.append_assoc, List.singleton_append]
      rw [step, ih (front ++ [e]) n ?_ hnd.2]
      · rw [List.append_assoc, List.singleton_append]
        simp [List.filter_cons, ha]
      · intro a hamem b hb
        rcases List.mem_append.mp hamem with hamem | hamem
        · exact hdisj a hamem b (List.mem_cons_of_mem _ hb)
        · rw [List.mem_singleton] at hamem
          rw [hamem]
          intro hk
          exact hnd.1 (hk ▸ List.mem_map_of_mem Prod.fst hb)
    · have hfr : deleteKey front e.1 = front :=
        deleteKey_of_away front e.1
          (fun a hamem => hdisj a hamem e (List.mem_cons_self _ _))
      have hrest : deleteKey rest e.1 = rest := by
        apply deleteKey_of_away
        intro b hb hk
        exact hnd.1 (hk ▸ List.mem_map_of_mem Prod.fst hb)
      have hdel : deleteKey (front ++ e :: rest) e.1 = front ++ rest := by
        have hcons : deleteKey (e :: rest) e.1 = deleteKey rest e.1 := by
          simp [deleteKey]
        calc deleteKey (front ++ e :: rest) e.1
            = deleteKey front e.1 ++ deleteKey (e :: rest) e.1 := by
              simp [deleteKey]
          _ = front ++ rest := by rw [hfr, hcons, hrest]
      have step : cleanupLoop alive (e :: rest) (front ++ e :: rest) n =
          cleanupLoop alive rest (front ++ rest) (n + 1) := by
        rw [cleanupLoop, if_neg ha, hdel]
      rw [step, ih front (n + 1)
            (fun a hamem b hb => hdisj a hamem b (List.mem_cons_of_mem _ hb))
            hnd.2]
      simp only [List.filter_cons, ha, if_false, Bool.not_eq_true',
                 Prod.mk.injEq]
      refine ⟨rfl, ?_⟩
      simp [ha]
      omega

/-- Claim C9: stale cleanup is exact.  For any registry (with the unique keys
a JavaScript object guarantees) and any liveness oracle,
`cleanupStaleInstances` removes exactly the entries whose pid is dead
(returning their count) and leaves every entry with a live pid unchanged, in
order. -/
theorem c9_cleanup_exact : ∀ (reg : Registry) (alive : Nat → Bool),
    (reg.map Prod.fst).Nodup →
    cleanupStaleInstances reg alive =
      (reg.filter (fun e => alive e.2.pid),
       (reg.filter (fun e => !alive e.2.pid)).length) := by
  intro reg alive hnd
  have h := cleanupLoop_eq alive reg [] 0 (by simp) hnd
  simpa [cleanupStaleInstances] using h

/-- Witness for C9: three entries, two dead pids — both removed, count 2, the
live entry untouched. -/
theorem c9_cleanup_exact_witness :
    cleanupStaleInstances
        [("a", { port := 12000, pid := 1 }), ("b", { port := 12001, pid := 2 }),
         ("c", { port := 12002, pid := 3 })] (fun pid => pid == 2) =
      ([("b", { port := 12001, pid := 2 })], 2) :=
  c9_cleanup_exact
    [("a", { port := 12000, pid := 1 }), ("b", { port := 12001, pid := 2 }),
     ("c", { port := 12002, pid := 3 })] (fun pid => pid == 2) (by decide)

/-! ## Claim C10: constructor falsy defaults -/

/-- Claim C10: falsy constructor options fall back to the defaults.  A
`maxInstances` of 0 (or an absent one) yields the default 100 — no pool can
be configured with capacity 0 through the constructor — and the same falsy
handling gives `baseDir` "./data" and `memoryMode` false. -/
theorem c10_falsy_defaults : ∀ o : PoolOptions,
    ((o.maxInstances = none ∨ o.maxInstances = some 0) →
        (mkInstancePool o).maxInstances = 100) ∧
    (mkInstancePool o).maxInstances ≠ 0 ∧
    ((o.baseDir = none ∨ o.baseDir = some "") →
        (mkInstancePool o).baseDir = "./data") ∧
    ((o.memoryMode = none ∨ o.memoryMode = some false) →
        (mkInstancePool o).memoryMode = false) := by
  intro o
  refine ⟨?_, ?_, ?_, ?_⟩
  · rintro (h | h) <;> simp [mkInstancePool, jsOrNat, h]
  · cases h : o.maxInstances with
    | none => simp [mkInstancePool, jsOrNat, h]
    | some n =>
      by_cases hn : n = 0 <;> simp [mkInstancePool, jsOrNat, h, hn]
  · rintro (h | h) <;> simp [mkInstancePool, jsOrString, h]
  · rintro (h | h) <;> simp [mkInstancePool, jsOrBool, h]

/-- Witness for C10: all three falsy options explicitly passed. -/
theorem c10_falsy_defaults_witness :
    (mkInstancePool
      (PoolOptions.mk (some "") (some false) (some 0) none)).maxInstances =
        100 ∧
    (mkInstancePool
      (PoolOptions.mk (some "") (some false) (some 0) none)).baseDir =
        "./data" ∧
    (mkInstancePool
      (PoolOptions.mk (some "") (some false) (some 0) none)).memoryMode =
        false :=
  ⟨(c10_falsy_defaults _).1 (Or.inr rfl),
   (c10_falsy_defaults _).2.2.1 (Or.inr rfl),
   (c10_falsy_defaults _).2.2.2 (Or.inr rfl)⟩

end PGliteServer
